import Mathlib

/-!
Shallow embedding of the core of the `ai-chatbot` backend
(`backend/app/services/*.py`, `backend/app/routes/*.py`) and proofs of the
specification's claims about it.

Conventions of the embedding:
* Python `time.time()` is modelled by an explicit `Nat` clock passed to each
  operation; Python float timestamps only ever enter comparisons of the form
  `now - ts <= ttl`, which `Nat` subtraction models faithfully for the
  monotone clocks that occur in runs.
* Python dicts are modelled as insertion-ordered association lists
  (`List (String × β)`); `dict[k] = v` updates in place when the key exists
  and appends otherwise, exactly like CPython.
* External collaborators (the network, `urllib.parse`, the regex engine,
  BeautifulSoup, the chroma vector capability, the hosted LLM HTTP APIs)
  are oracle parameters, as the spec declares them external capabilities.
* Numeric scores (floats in Python) are modelled by `Rat`; the only float
  arithmetic the claims mention is `1 - distance` and literal constants,
  for which exact rationals are order- and value-faithful.
-/

namespace AIChatbot

/-! ## Cache service — `backend/app/services/cache_service.py`

`CacheService.__init__(max_size=50, ttl=3600)` keeps `self.cache` as a dict
from key to `{'data': value, 'timestamp': time.time()}`. -/

structure CacheEntry (α : Type) where
  data : α
  timestamp : Nat
deriving Repr, DecidableEq

structure CacheState (α : Type) where
  cache : List (String × CacheEntry α)
  max_size : Nat
  ttl : Nat
deriving Repr, DecidableEq

/-- Python dict lookup: the (unique) entry for a key. -/
def dictLookup {β : Type} (l : List (String × β)) (k : String) : Option β :=
  (l.find? (fun p => p.1 = k)).map (fun p => p.2)

/-- Python `d[k] = v`: update in place if the key exists, else append. -/
def dictSet {β : Type} (l : List (String × β)) (k : String) (v : β) :
    List (String × β) :=
  if l.any (fun p => p.1 = k) then
    l.map (fun p => if p.1 = k then (k, v) else p)
  else
    l ++ [(k, v)]

/-- Python `del d[k]` (keys are unique in a dict, so filtering is faithful). -/
def dictErase {β : Type} (l : List (String × β)) (k : String) :
    List (String × β) :=
  l.filter (fun p => ¬ p.1 = k)

/-- `CacheService._cleanup_expired`: drop entries with
`current_time - value['timestamp'] > self.ttl`. -/
def cleanupExpired {α : Type} (l : List (String × CacheEntry α))
    (ttl now : Nat) : List (String × CacheEntry α) :=
  l.filter (fun p => now - p.2.timestamp ≤ ttl)

/-- `min(self.cache.keys(), key=lambda k: self.cache[k]['timestamp'])`:
first entry (in dict order) with minimal timestamp. -/
def minByTimestamp {α : Type} :
    List (String × CacheEntry α) → Option (String × CacheEntry α)
  | [] => none
  | x :: xs =>
      some (xs.foldl
        (fun b e => if e.2.timestamp < b.2.timestamp then e else b) x)

/-- `CacheService._cleanup_oldest`: when `len(self.cache) >= self.max_size`,
delete the key with the oldest timestamp.  (With `max_size = 0` and an empty
cache, CPython would raise `ValueError` from `min([])`; that branch is
unreachable for `max_size ≥ 1`, which all constructions in the repo satisfy,
and is modelled as a no-op.) -/
def cleanupOldest {α : Type} (l : List (String × CacheEntry α))
    (max_size : Nat) : List (String × CacheEntry α) :=
  if max_size ≤ l.length then
    match minByTimestamp l with
    | some m => dictErase l m.1
    | none => l
  else l

/-- `CacheService.get`. After `_cleanup_expired`, a surviving entry always
satisfies `now - timestamp <= ttl`, so the inner re-check in the source
succeeds whenever the key is found. -/
def CacheService.get {α : Type} (s : CacheState α) (k : String) (now : Nat) :
    Option α × CacheState α :=
  let c1 := cleanupExpired s.cache s.ttl now
  match dictLookup c1 k with
  | some e =>
      if now - e.timestamp ≤ s.ttl then (some e.data, { s with cache := c1 })
      else (none, { s with cache := dictErase c1 k })
  | none => (none, { s with cache := c1 })

/-- `CacheService.set`: expire, evict-at-capacity, then insert with the
current time as timestamp. -/
def CacheService.set {α : Type} (s : CacheState α) (k : String) (v : α)
    (now : Nat) : CacheState α :=
  let c1 := cleanupExpired s.cache s.ttl now
  let c2 := cleanupOldest c1 s.max_size
  { s with cache := dictSet c2 k ⟨v, now⟩ }

/-- `CacheService.delete`. -/
def CacheService.delete {α : Type} (s : CacheState α) (k : String) :
    CacheState α :=
  { s with cache := dictErase s.cache k }

/-- `CacheService.clear`. -/
def CacheService.clear {α : Type} (s : CacheState α) : CacheState α :=
  { s with cache := [] }

/-- `CacheService.get_stats` (it runs `_cleanup_expired`, so it mutates). -/
def CacheService.getStats {α : Type} (s : CacheState α) (now : Nat) :
    (Nat × Nat × Nat) × CacheState α :=
  let c1 := cleanupExpired s.cache s.ttl now
  ((c1.length, s.max_size, s.ttl), { s with cache := c1 })

/-- A fresh `CacheService(max_size, ttl)`. -/
def CacheService.init (α : Type) (max_size ttl : Nat) : CacheState α :=
  ⟨[], max_size, ttl⟩

/-- The public operations of `CacheService`, for whole-history statements. -/
inductive CacheOp (α : Type) where
  | get (k : String) (now : Nat)
  | set (k : String) (v : α) (now : Nat)
  | delete (k : String)
  | clear
  | stats (now : Nat)

def CacheOp.apply {α : Type} (s : CacheState α) : CacheOp α → CacheState α
  | .get k now => (CacheService.get s k now).2
  | .set k v now => CacheService.set s k v now
  | .delete k => CacheService.delete s k
  | .clear => CacheService.clear s
  | .stats now => (CacheService.getStats s now).2

def runOps {α : Type} (s : CacheState α) (ops : List (CacheOp α)) :
    CacheState α :=
  ops.foldl CacheOp.apply s

/-! ### Cache lemmas -/

theorem cleanupExpired_length_le {α : Type} (l : List (String × CacheEntry α))
    (ttl now : Nat) : (cleanupExpired l ttl now).length ≤ l.length :=
  List.length_filter_le _ l

theorem dictErase_length_le {α : Type} (l : List (String × CacheEntry α))
    (k : String) : (dictErase l k).length ≤ l.length :=
  List.length_filter_le _ l

theorem dictSet_length_le {β : Type} (l : List (String × β)) (k : String)
    (v : β) : (dictSet l k v).length ≤ l.length + 1 := by
  unfold dictSet
  by_cases h : l.any (fun p => p.1 = k)
  · simp [h]
  · simp [h]

theorem foldlMin_mem {α : Type} (xs : List (String × CacheEntry α))
    (b : String × CacheEntry α) :
    xs.foldl (fun b e => if e.2.timestamp < b.2.timestamp then e else b) b
      ∈ b :: xs := by
  induction xs generalizing b with
  | nil => simp
  | cons y ys ih =>
    simp only [List.foldl_cons]
    have h := ih (if y.2.timestamp < b.2.timestamp then y else b)
    rcases List.mem_cons.mp h with h1 | h1
    · rw [h1]
      by_cases hy : y.2.timestamp < b.2.timestamp
      · simp [hy]
      · simp [hy]
    · exact List.mem_cons_of_mem _ (List.mem_cons_of_mem _ h1)

theorem foldlMin_le {α : Type} (xs : List (String × CacheEntry α))
    (b : String × CacheEntry α) :
    (xs.foldl (fun b e => if e.2.timestamp < b.2.timestamp then e else b)
        b).2.timestamp ≤ b.2.timestamp ∧
    ∀ p ∈ xs,
      (xs.foldl (fun b e => if e.2.timestamp < b.2.timestamp then e else b)
          b).2.timestamp ≤ p.2.timestamp := by
  induction xs generalizing b with
  | nil => simp
  | cons y ys ih =>
    simp only [List.foldl_cons]
    have h := ih (if y.2.timestamp < b.2.timestamp then y else b)
    have hfb : (if y.2.timestamp < b.2.timestamp then y else b).2.timestamp
        ≤ b.2.timestamp := by
      by_cases hy : y.2.timestamp < b.2.timestamp
      · simp [hy]; exact le_of_lt hy
      · simp [hy]
    have hfy : (if y.2.timestamp < b.2.timestamp then y else b).2.timestamp
        ≤ y.2.timestamp := by
      by_cases hy : y.2.timestamp < b.2.timestamp
      · simp [hy]
      · simp [hy]; exact le_of_not_lt hy
    refine ⟨le_trans h.1 hfb, ?_⟩
    intro p hp
    rcases List.mem_cons.mp hp with h1 | h1
    · rw [h1]; exact le_trans h.1 hfy
    · exact h.2 p h1

theorem minByTimestamp_mem {α : Type} (l : List (String × CacheEntry α))
    (m : String × CacheEntry α) (h : minByTimestamp l = some m) : m ∈ l := by
  match l with
  | [] => simp [minByTimestamp] at h
  | x :: xs =>
    simp only [minByTimestamp, Option.some.injEq] at h
    subst h
    exact foldlMin_mem xs x

theorem minByTimestamp_le {α : Type} (l : List (String × CacheEntry α))
    (m : String × CacheEntry α) (h : minByTimestamp l = some m) :
    ∀ p ∈ l, m.2.timestamp ≤ p.2.timestamp := by
  match l with
  | [] => simp [minByTimestamp] at h
  | x :: xs =>
    simp only [minByTimestamp, Option.some.injEq] at h
    subst h
    intro p hp
    rcases List.mem_cons.mp hp with h1 | h1
    · rw [h1]; exact (foldlMin_le xs x).1
    · exact (foldlMin_le xs x).2 p h1

theorem minByTimestamp_isSome {α : Type} (l : List (String × CacheEntry α))
    (h : l ≠ []) : ∃ m, minByTimestamp l = some m := by
  match l with
  | [] => exact absurd rfl h
  | x :: xs => exact ⟨_, rfl⟩

theorem dictErase_mem_length_lt {α : Type} (l : List (String × CacheEntry α))
    (m : String × CacheEntry α) (hm : m ∈ l) :
    (dictErase l m.1).length < l.length := by
  unfold dictErase
  rw [List.length_filter_lt_length_iff_exists]
  exact ⟨m, hm, by simp⟩

theorem cleanupOldest_length {α : Type} (l : List (String × CacheEntry α))
    (ms : Nat) (hms : 1 ≤ ms) (hl : l.length ≤ ms) :
    (cleanupOldest l ms).length + 1 ≤ ms := by
  unfold cleanupOldest
  by_cases h : ms ≤ l.length
  · simp only [h, if_pos]
    have hne : l ≠ [] := by
      intro he
      rw [he] at h
      simp at h
      omega
    obtain ⟨m, hm⟩ := minByTimestamp_isSome l hne
    rw [hm]
    show (dictErase l m.1).length + 1 ≤ ms
    have := dictErase_mem_length_lt l m (minByTimestamp_mem l m hm)
    omega
  · simp only [h, if_neg, not_false_eq_true]
    omega

theorem set_length_le {α : Type} (s : CacheState α) (k : String) (v : α)
    (now : Nat) (hms : 1 ≤ s.max_size) (hs : s.cache.length ≤ s.max_size) :
    (CacheService.set s k v now).cache.length ≤ s.max_size := by
  unfold CacheService.set
  simp only
  have h1 : (cleanupExpired s.cache s.ttl now).length ≤ s.max_size :=
    le_trans (cleanupExpired_length_le _ _ _) hs
  have h2 := cleanupOldest_length (cleanupExpired s.cache s.ttl now)
    s.max_size hms h1
  have h3 := dictSet_length_le
    (cleanupOldest (cleanupExpired s.cache s.ttl now) s.max_size) k
    (⟨v, now⟩ : CacheEntry α)
  omega

theorem apply_eq_update {α : Type} (s : CacheState α) (op : CacheOp α) :
    ∃ c, op.apply s = { s with cache := c } := by
  cases op with
  | get k now =>
    simp only [CacheOp.apply, CacheService.get]
    split
    · split
      · exact ⟨_, rfl⟩
      · exact ⟨_, rfl⟩
    · exact ⟨_, rfl⟩
  | set k v now => exact ⟨_, rfl⟩
  | delete k => exact ⟨_, rfl⟩
  | clear => exact ⟨_, rfl⟩
  | stats now => exact ⟨_, rfl⟩

theorem apply_preserves_fields {α : Type} (s : CacheState α)
    (op : CacheOp α) : (op.apply s).max_size = s.max_size ∧
    (op.apply s).ttl = s.ttl := by
  obtain ⟨c, hc⟩ := apply_eq_update s op
  rw [hc]
  exact ⟨rfl, rfl⟩

theorem apply_length_le {α : Type} (s : CacheState α) (op : CacheOp α)
    (hms : 1 ≤ s.max_size) (hs : s.cache.length ≤ s.max_size) :
    (op.apply s).cache.length ≤ s.max_size := by
  cases op with
  | get k now =>
    simp only [CacheOp.apply, CacheService.get]
    split
    · split
      · exact le_trans (cleanupExpired_length_le _ _ _) hs
      · exact le_trans (le_trans (dictErase_length_le _ _)
          (cleanupExpired_length_le _ _ _)) hs
    · exact le_trans (cleanupExpired_length_le _ _ _) hs
  | set k v now => exact set_length_le s k v now hms hs
  | delete k => exact le_trans (dictErase_length_le _ _) hs
  | clear => simp [CacheOp.apply, CacheService.clear]
  | stats now =>
    simp only [CacheOp.apply, CacheService.getStats]
    exact le_trans (cleanupExpired_length_le _ _ _) hs

theorem runOps_max_size {α : Type} (s : CacheState α)
    (ops : List (CacheOp α)) : (runOps s ops).max_size = s.max_size := by
  induction ops generalizing s with
  | nil => simp [runOps]
  | cons op ops ih =>
    have hf := apply_preserves_fields s op
    have := ih (op.apply s)
    simp only [runOps, List.foldl_cons] at *
    rw [this, hf.1]

theorem runOps_length_le {α : Type} (s : CacheState α)
    (ops : List (CacheOp α)) (hms : 1 ≤ s.max_size)
    (hs : s.cache.length ≤ s.max_size) :
    (runOps s ops).cache.length ≤ (runOps s ops).max_size := by
  induction ops generalizing s with
  | nil => simpa [runOps] using hs
  | cons op ops ih =>
    have hf := apply_preserves_fields s op
    have h1 := apply_length_le s op hms hs
    have := ih (op.apply s) (by rw [hf.1]; exact hms) (by rw [hf.1]; exact h1)
    simpa [runOps] using this

/-- C6: starting from a fresh `CacheService(max_size, ttl)` with
`max_size ≥ 1`, after any sequence of public operations the cache holds at
most `max_size` entries (in particular after any `set`); and whenever `set`
evicts for capacity (`_cleanup_oldest` with the cache at/above capacity),
the evicted entry is one with the oldest insertion timestamp among the
entries present at that moment. -/
theorem C6_cache_bounded_and_evicts_oldest (α : Type) (ms ttl : Nat)
    (hms : 1 ≤ ms) (ops : List (CacheOp α)) :
    (runOps (CacheService.init α ms ttl) ops).cache.length ≤ ms ∧
    ∀ (l : List (String × CacheEntry α)), ms ≤ l.length →
      ∃ m, minByTimestamp l = some m ∧
        cleanupOldest l ms = dictErase l m.1 ∧ m ∈ l ∧
        ∀ p ∈ l, m.2.timestamp ≤ p.2.timestamp := by
  constructor
  · have h := runOps_length_le (CacheService.init α ms ttl) ops hms
      (by simp [CacheService.init])
    have hfix : (runOps (CacheService.init α ms ttl) ops).max_size = ms := by
      rw [runOps_max_size]; rfl
    rw [hfix] at h
    exact h
  · intro l hl
    have hne : l ≠ [] := by
      intro he; rw [he] at hl; simp at hl; omega
    obtain ⟨m, hm⟩ := minByTimestamp_isSome l hne
    refine ⟨m, hm, ?_, minByTimestamp_mem l m hm, minByTimestamp_le l m hm⟩
    unfold cleanupOldest
    simp [hl, hm]

/-- Witness for C6 at a concrete instance. -/
theorem C6_cache_bounded_and_evicts_oldest_witness :
    (runOps (CacheService.init Nat 1 0) [CacheOp.set "a" 5 0]).cache.length
      ≤ 1 :=
  (C6_cache_bounded_and_evicts_oldest Nat 1 0 (by decide)
    [CacheOp.set "a" 5 0]).1

/-! ## Lightweight crawler — `backend/app/services/lightweight_crawler.py`

External collaborators are oracle parameters gathered in `CrawlEnv`:
`urlparse`/`urljoin` (from `urllib.parse`), the compiled `ignore_patterns`
regex test (`_should_ignore_url`'s `re.search` calls), and the network
(`self.session.get` composed with BeautifulSoup extraction:
`web url = none` models a fetch error, timeout, non-200 status or a
non-HTML content type; `some raw` carries the page's extracted title,
meta description, visible text, and raw `<a href>` values). -/

structure UrlParts where
  scheme : String
  netloc : String
  path : String
deriving Repr, DecidableEq

structure RawPage where
  title : String
  description : String
  content : String
  hrefs : List String
deriving Repr, DecidableEq

structure CrawlEnv where
  urlparse : String → UrlParts
  urljoin : String → String → String
  shouldIgnore : String → Bool
  web : String → Option RawPage

/-- `f"{parsed.scheme}://{parsed.netloc}{parsed.path}"` in `_extract_links`. -/
def cleanUrl (env : CrawlEnv) (u : String) : String :=
  let p := env.urlparse u
  p.scheme ++ "://" ++ p.netloc ++ p.path

/-- One iteration of the `soup.find_all('a', href=True)` loop body of
`_extract_links`: resolve the href against the page URL, clean it to
scheme+netloc+path, and keep it when non-empty, not matching an ignore
pattern, and same-domain relative to the *page's* URL. -/
def linkFilter (env : CrawlEnv) (base_url href : String) : Option String :=
  let absolute := env.urljoin base_url href
  let clean := cleanUrl env absolute
  if clean ≠ "" ∧ env.shouldIgnore clean = false ∧
      (env.urlparse clean).netloc = (env.urlparse base_url).netloc
  then some clean else none

/-- `LightweightCrawler._extract_links`; the final `list(set(links))`
de-duplicates (CPython's set order is unspecified; the claims proved below
do not depend on the order `dedup` picks). -/
def extractLinks (env : CrawlEnv) (hrefs : List String) (base_url : String) :
    List String :=
  (hrefs.filterMap (linkFilter env base_url)).dedup

/-- Python slicing `s[:n]` (character-based, like Python's). -/
def strTake (s : String) (n : Nat) : String := ⟨s.toList.take n⟩

/-- Python `len(s)` (character-based, like Python's). -/
def strLen (s : String) : Nat := s.toList.length

/-- The content-size limit in `_extract_content`. -/
def limitContent (s : String) : String :=
  if 2000 < strLen s then strTake s 2000 ++ "..." else s

structure Extracted where
  url : String
  title : String
  description : String
  content : String
  links : List String
deriving Repr, DecidableEq

/-- `LightweightCrawler._fetch_single_url`.  The `visited` argument is the
visited set the coroutine observes at its initial (pre-await) check; in
`asyncio.gather` all coroutines of one wave run that check before any of
them completes a fetch, so one wave's coroutines all see the wave-start
visited set. -/
def fetchSingleUrl (env : CrawlEnv) (visited : List String) (url : String) :
    Option Extracted :=
  if url ∈ visited then none
  else
    match env.web url with
    | none => none
    | some raw =>
        some ⟨url, raw.title, raw.description, limitContent raw.content,
          extractLinks env raw.hrefs url⟩

structure PageResult where
  url : String
  title : String
  description : String
  content : String
  source : String
deriving Repr, DecidableEq

/-- The record appended to `results` in `crawl_with_discovery`
(`content` truncated to 1000 characters, `source = 'crawler'`). -/
def toPageResult (e : Extracted) : PageResult :=
  ⟨e.url, e.title, e.description, strTake e.content 1000, "crawler"⟩

/-- Batch formation of one wave: pop `min(max_concurrent, len(queue))`
entries and keep those with `depth <= max_depth` and url not visited. -/
def waveBatch (c max_depth : Nat) (queue : List (String × Nat))
    (visited : List String) : List (String × Nat) :=
  (queue.take (min c queue.length)).filter
    (fun p => p.2 ≤ max_depth ∧ p.1 ∉ visited)

/-- The successful fetches of one wave, in batch order. -/
def waveFetched (env : CrawlEnv) (visited : List String)
    (batch : List (String × Nat)) : List Extracted :=
  (batch.map (fun p => fetchSingleUrl env visited p.1)).filterMap id

/-- Links enqueued by one wave's result-processing loop: for each fetched
page, the first 5 discovered links not in the (post-wave) visited set,
each enqueued with the FIXED depth 1 — `queue.append((link, 1))` in the
source, not `depth + 1`. -/
def waveLinks (visitedAfter : List String) (fetched : List Extracted) :
    List (String × Nat) :=
  (fetched.map (fun e =>
    ((e.links.take 5).filter (fun l => l ∉ visitedAfter)).map
      (fun l => (l, 1)))).flatten

/-- The `while queue and len(results) < self.max_pages` loop of
`crawl_with_discovery`, with explicit fuel (every theorem below holds for
every fuel value, hence for the fuel of any actual run). -/
def crawlLoop (env : CrawlEnv) (c max_pages max_depth : Nat) :
    Nat → List (String × Nat) → List String → List PageResult →
    List PageResult × List String
  | 0, _, visited, results => (results, visited)
  | fuel + 1, queue, visited, results =>
    if queue.isEmpty ∨ max_pages ≤ results.length then (results, visited)
    else
      let batch := waveBatch c max_depth queue visited
      if batch.isEmpty then (results, visited)
      else
        let fetched := waveFetched env visited batch
        let visitedAfter := visited ++ fetched.map (fun e => e.url)
        crawlLoop env c max_pages max_depth fuel
          (queue.drop (min c queue.length) ++ waveLinks visitedAfter fetched)
          visitedAfter
          (results ++ fetched.map toPageResult)

structure LightweightCrawler where
  max_pages : Nat
  max_depth : Nat
  delayTenths : Nat
  visited_urls : List String
  max_concurrent : Option Nat
deriving Repr, DecidableEq

/-- `LightweightCrawler.__init__(max_pages=20, max_depth=2, delay=0.5)`.
It assigns `max_pages`, `max_depth`, `delay` and an empty `visited_urls`,
and never assigns `max_concurrent` — modelled as `none`. -/
def LightweightCrawler.construct : LightweightCrawler := ⟨20, 2, 5, [], none⟩

inductive PyError where
  | attributeError (name : String)
deriving Repr, DecidableEq

/-- `LightweightCrawler.crawl_with_discovery(start_url)`.  The loop body
reads `self.max_concurrent`; since the loop is entered exactly when
`max_pages > 0` (the queue starts non-empty with `(start_url, 0)`), the
read — and hence `AttributeError` when the attribute was never assigned —
happens if and only if `max_pages > 0`.  The local `base_domain` computed
at the top of the source function is dead (never read afterwards).
`visited_urls` is instance state: it is NOT reset here, and the updated
instance is returned alongside the results. -/
def LightweightCrawler.crawl_with_discovery (env : CrawlEnv)
    (cr : LightweightCrawler) (start_url : String) (fuel : Nat) :
    Except PyError (List PageResult × LightweightCrawler) :=
  if cr.max_pages = 0 then .ok ([], cr)
  else
    match cr.max_concurrent with
    | none => .error (.attributeError "max_concurrent")
    | some c =>
        let out := crawlLoop env c cr.max_pages cr.max_depth fuel
          [(start_url, 0)] cr.visited_urls []
        .ok (out.1, { cr with visited_urls := out.2 })

/-- `LightweightCrawler.get_real_time_data(url)`: opens a fresh HTTP
session (`async with self`) — which touches no crawl state — and delegates
to `crawl_with_discovery`.  In particular it performs no reset of
`visited_urls`. -/
def LightweightCrawler.get_real_time_data (env : CrawlEnv)
    (cr : LightweightCrawler) (url : String) (fuel : Nat) :
    Except PyError (List PageResult × LightweightCrawler) :=
  LightweightCrawler.crawl_with_discovery env cr url fuel

/-! ### Concrete crawl fixtures

A miniature same-domain web served by `naiveParse` URLs of the shape
`scheme://netloc/path`, with `urljoin` resolving (already absolute) hrefs
to themselves and no ignore patterns matching. -/

/-- Split a character list at the first occurrence of the separator
`://` (a computable stand-in for `urllib.parse` in the fixtures). -/
def splitAtSep : List Char → Option (List Char × List Char)
  | [] => none
  | ':' :: '/' :: '/' :: rest => some ([], rest)
  | c :: rest =>
      match splitAtSep rest with
      | some pp => some (c :: pp.1, pp.2)
      | none => none

def naiveParse (u : String) : UrlParts :=
  match splitAtSep u.toList with
  | some pp =>
      let netloc := pp.2.takeWhile (fun ch => ¬ ch = '/')
      ⟨⟨pp.1⟩, ⟨netloc⟩, ⟨pp.2.drop netloc.length⟩⟩
  | none => ⟨"", "", u⟩

def mkRaw (links : List String) : RawPage := ⟨"t", "d", "body", links⟩

/-- Fixture A: `s` links to `a` and `b`; `a` and `b` both link to `d`. -/
def testWebA : String → Option RawPage := fun u =>
  if u = "http://h/s" then some (mkRaw ["http://h/a", "http://h/b"])
  else if u = "http://h/a" then some (mkRaw ["http://h/d"])
  else if u = "http://h/b" then some (mkRaw ["http://h/d"])
  else if u = "http://h/d" then some (mkRaw [])
  else none

def testEnvA : CrawlEnv := ⟨naiveParse, fun _ href => href, fun _ => false, testWebA⟩

/-- A crawler with `max_pages = 4`, `max_depth = 2`, and the (never
initialised in the source) `max_concurrent` supplied as 2. -/
def testCrawlerA : LightweightCrawler := ⟨4, 2, 5, [], some 2⟩

def crawlRunA : List PageResult :=
  match LightweightCrawler.crawl_with_discovery testEnvA testCrawlerA
      "http://h/s" 10 with
  | .ok out => out.1
  | .error _ => []

/-- Fixture B: the chain `s → a → b`. -/
def testWebB : String → Option RawPage := fun u =>
  if u = "http://h/s" then some (mkRaw ["http://h/a"])
  else if u = "http://h/a" then some (mkRaw ["http://h/b"])
  else if u = "http://h/b" then some (mkRaw [])
  else none

def testEnvB : CrawlEnv := ⟨naiveParse, fun _ href => href, fun _ => false, testWebB⟩

/-- A crawler with `max_depth = 1` and sequential fetching. -/
def testCrawlerB : LightweightCrawler := ⟨10, 1, 5, [], some 1⟩

def crawlRunB : List PageResult :=
  match LightweightCrawler.crawl_with_discovery testEnvB testCrawlerB
      "http://h/s" 10 with
  | .ok out => out.1
  | .error _ => []

/-- Fixture C: a single standalone page. -/
def testWebC : String → Option RawPage := fun u =>
  if u = "http://h/s" then some (mkRaw []) else none

def testEnvC : CrawlEnv := ⟨naiveParse, fun _ href => href, fun _ => false, testWebC⟩

/-- The source's defaults with `max_concurrent` supplied as 1. -/
def testCrawlerC : LightweightCrawler := ⟨20, 2, 5, [], some 1⟩

def runCfirst : Except PyError (List PageResult × LightweightCrawler) :=
  LightweightCrawler.get_real_time_data testEnvC testCrawlerC "http://h/s" 5

def crawlerAfterC : LightweightCrawler :=
  match runCfirst with
  | .ok out => out.2
  | .error _ => testCrawlerC

def resCfirst : List PageResult :=
  match runCfirst with
  | .ok out => out.1
  | .error _ => []

def resCsecond : List PageResult :=
  match LightweightCrawler.get_real_time_data testEnvC crawlerAfterC
      "http://h/s" 5 with
  | .ok out => out.1
  | .error _ => []

/-- C1 (code bug): the page budget is only checked between fetch waves and a
URL enqueued twice in one wave is fetched twice, so a crawl with
`max_pages = 4` over fixture A (where `a` and `b` both link to `d`, with
concurrency 2) returns 5 records, two of which carry the same URL
`http://h/d` — contradicting "at most N records, pairwise distinct URLs". -/
theorem C1_crawl_overshoots_budget_and_repeats_url :
    testCrawlerA.max_pages = 4 ∧
    crawlRunA.length = 5 ∧
    (crawlRunA.map PageResult.url).count "http://h/d" = 2 := by
  refine ⟨rfl, ?_, ?_⟩ <;> decide

/-- C2 (code bug): `__init__` never assigns `self.max_concurrent`, but the
loop body of `crawl_with_discovery` reads it, so every crawl on a freshly
constructed `LightweightCrawler()` (default `max_pages = 20 > 0`) raises
`AttributeError` instead of terminating normally — for every seed URL,
every environment, and however long the crawl would have run.
`get_real_time_data` propagates the same exception. -/
theorem C2_crawl_always_raises_attribute_error (env : CrawlEnv)
    (url : String) (fuel : Nat) :
    LightweightCrawler.construct.max_concurrent = none ∧
    LightweightCrawler.crawl_with_discovery env
        LightweightCrawler.construct url fuel =
      .error (.attributeError "max_concurrent") ∧
    LightweightCrawler.get_real_time_data env
        LightweightCrawler.construct url fuel =
      .error (.attributeError "max_concurrent") :=
  ⟨rfl, rfl, rfl⟩

/-- C3 (code bug): discovered links are enqueued with the fixed depth `1`
(`queue.append((link, 1))`), not `depth + 1`.  Over fixture B (the chain
`s → a → b`) with `max_depth = 1`, the page `b` — at distance 2 from the
seed — is fetched and returned, because `b` was enqueued at recorded depth
1 while the claim's depth-increment semantics would have enqueued it at
depth 2 and excluded it. -/
theorem C3_fixed_depth_enqueue_fetches_beyond_max_depth :
    testCrawlerB.max_depth = 1 ∧
    crawlRunB.map PageResult.url =
      ["http://h/s", "http://h/a", "http://h/b"] := by
  refine ⟨rfl, ?_⟩; decide

/-- C4 (code bug): `visited_urls` is instance state of the module-level
singleton and neither `get_real_time_data` nor the `/scrape` route resets
it.  Over fixture C, the first invocation returns the seed page and leaves
the seed in `visited_urls`; the second independent invocation with the very
same arguments starts with that stale Visited set and returns no records at
all. -/
theorem C4_visited_set_leaks_across_invocations :
    resCfirst.length = 1 ∧
    crawlerAfterC.visited_urls = ["http://h/s"] ∧
    resCsecond = [] := by
  refine ⟨?_, ?_, ?_⟩ <;> decide

/-! ### Same-domain invariant (C5) -/

theorem linkFilter_netloc (env : CrawlEnv) (base_url href l : String)
    (h : linkFilter env base_url href = some l) :
    (env.urlparse l).netloc = (env.urlparse base_url).netloc := by
  simp only [linkFilter] at h
  split at h
  · next hcond =>
    cases h
    exact hcond.2.2
  · exact absurd h (by simp)

theorem extractLinks_netloc (env : CrawlEnv) (hrefs : List String)
    (base_url : String) :
    ∀ l ∈ extractLinks env hrefs base_url,
      (env.urlparse l).netloc = (env.urlparse base_url).netloc := by
  intro l hl
  unfold extractLinks at hl
  rw [List.mem_dedup] at hl
  obtain ⟨href, _, hf⟩ := List.mem_filterMap.mp hl
  exact linkFilter_netloc env base_url href l hf

theorem fetchSingleUrl_some (env : CrawlEnv) (visited : List String)
    (url : String) (e : Extracted)
    (h : fetchSingleUrl env visited url = some e) :
    e.url = url ∧ url ∉ visited ∧
    ∃ raw, env.web url = some raw ∧
      e.links = extractLinks env raw.hrefs url := by
  unfold fetchSingleUrl at h
  split at h
  · exact absurd h (by simp)
  · next hnv =>
    cases hw : env.web url with
    | none => rw [hw] at h; exact absurd h (by simp)
    | some raw =>
      rw [hw] at h
      simp only [Option.some.injEq] at h
      subst h
      exact ⟨rfl, hnv, raw, rfl, rfl⟩

theorem waveBatch_mem (c md : Nat) (q : List (String × Nat))
    (v : List String) (p : String × Nat) (hp : p ∈ waveBatch c md q v) :
    p ∈ q ∧ p.2 ≤ md ∧ p.1 ∉ v := by
  unfold waveBatch at hp
  have h1 := List.mem_filter.mp hp
  refine ⟨List.take_subset _ _ h1.1, ?_⟩
  simpa using h1.2

theorem waveFetched_mem (env : CrawlEnv) (v : List String)
    (batch : List (String × Nat)) (e : Extracted)
    (he : e ∈ waveFetched env v batch) :
    ∃ p ∈ batch, fetchSingleUrl env v p.1 = some e := by
  unfold waveFetched at he
  obtain ⟨o, ho, hoe⟩ := List.mem_filterMap.mp he
  obtain ⟨p, hp, hpo⟩ := List.mem_map.mp ho
  exact ⟨p, hp, by rw [hpo]; exact hoe⟩

theorem waveLinks_mem (va : List String) (fetched : List Extracted)
    (p : String × Nat) (hp : p ∈ waveLinks va fetched) :
    p.2 = 1 ∧ p.1 ∉ va ∧ ∃ e ∈ fetched, p.1 ∈ e.links := by
  unfold waveLinks at hp
  rw [List.mem_flatten] at hp
  obtain ⟨l, hl, hpl⟩ := hp
  obtain ⟨e, he, hel⟩ := List.mem_map.mp hl
  subst hel
  obtain ⟨x, hx, hxp⟩ := List.mem_map.mp hpl
  have hx2 := List.mem_filter.mp hx
  refine ⟨by rw [← hxp], by rw [← hxp]; simpa using hx2.2, e, he, ?_⟩
  rw [← hxp]
  exact List.take_subset _ _ hx2.1

theorem crawlLoop_same_domain (env : CrawlEnv) (c mp md : Nat)
    (dom : String) (fuel : Nat) :
    ∀ (queue : List (String × Nat)) (visited : List String)
      (results : List PageResult),
      (∀ p ∈ queue, (env.urlparse p.1).netloc = dom) →
      (∀ r ∈ (crawlLoop env c mp md fuel queue visited results).1,
          r ∈ results ∨ (env.urlparse r.url).netloc = dom) ∧
      (∀ u ∈ (crawlLoop env c mp md fuel queue visited results).2,
          u ∈ visited ∨ (env.urlparse u).netloc = dom) := by
  induction fuel with
  | zero =>
    intro queue visited results hq
    exact ⟨fun r hr => Or.inl hr, fun u hu => Or.inl hu⟩
  | succ fuel ih =>
    intro queue visited results hq
    simp only [crawlLoop]
    split
    · exact ⟨fun r hr => Or.inl hr, fun u hu => Or.inl hu⟩
    · split
      · exact ⟨fun r hr => Or.inl hr, fun u hu => Or.inl hu⟩
      · have hbatch : ∀ p ∈ waveBatch c md queue visited,
            (env.urlparse p.1).netloc = dom := fun p hp =>
          hq p (waveBatch_mem c md queue visited p hp).1
        have hfetched : ∀ e ∈ waveFetched env visited
            (waveBatch c md queue visited),
            (env.urlparse e.url).netloc = dom ∧
            ∀ l ∈ e.links, (env.urlparse l).netloc = dom := by
          intro e he
          obtain ⟨p, hp, hpe⟩ :=
            waveFetched_mem env visited (waveBatch c md queue visited) e he
          obtain ⟨heu, _, raw, _, hlinks⟩ :=
            fetchSingleUrl_some env visited p.1 e hpe
          constructor
          · rw [heu]; exact hbatch p hp
          · intro l hl
            rw [hlinks] at hl
            have h6 := extractLinks_netloc env raw.hrefs p.1 l hl
            rw [h6]
            exact hbatch p hp
        have hq2 : ∀ p ∈ queue.drop (min c queue.length) ++
            waveLinks
              (visited ++ (waveFetched env visited
                (waveBatch c md queue visited)).map (fun e => e.url))
              (waveFetched env visited (waveBatch c md queue visited)),
            (env.urlparse p.1).netloc = dom := by
          intro p hp
          rcases List.mem_append.mp hp with h1 | h1
          · exact hq p (List.drop_subset _ _ h1)
          · obtain ⟨_, _, e, he, hle⟩ := waveLinks_mem _ _ p h1
            exact (hfetched e he).2 p.1 hle
        have main := ih
          (queue.drop (min c queue.length) ++
            waveLinks
              (visited ++ (waveFetched env visited
                (waveBatch c md queue visited)).map (fun e => e.url))
              (waveFetched env visited (waveBatch c md queue visited)))
          (visited ++ (waveFetched env visited
            (waveBatch c md queue visited)).map (fun e => e.url))
          (results ++ (waveFetched env visited
            (waveBatch c md queue visited)).map toPageResult)
          hq2
        constructor
        · intro r hr
          rcases main.1 r hr with h1 | h1
          · rcases List.mem_append.mp h1 with h2 | h2
            · exact Or.inl h2
            · obtain ⟨e, he, hre⟩ := List.mem_map.mp h2
              right
              rw [← hre]
              exact (hfetched e he).1
          · exact Or.inr h1
        · intro u hu
          rcases main.2 u hu with h1 | h1
          · rcases List.mem_append.mp h1 with h2 | h2
            · exact Or.inl h2
            · obtain ⟨e, he, hue⟩ := List.mem_map.mp h2
              right
              rw [← hue]
              exact (hfetched e he).1
          · exact Or.inr h1

/-- C5: every crawl — whatever the parameters and however the external
`urlparse`/`urljoin`/regex/network capabilities behave — returns only page
records whose URL host equals the seed URL's host, and adds to the Visited
set only URLs of that host (so no cross-domain URL is ever fetched): the
seed trivially has the seed's host, and `_extract_links` only enqueues
links whose cleaned-URL host equals the linking page's host. -/
theorem C5_crawl_stays_on_seed_domain (env : CrawlEnv)
    (cr : LightweightCrawler) (url : String) (fuel c : Nat)
    (res : List PageResult) (cr2 : LightweightCrawler)
    (hc : cr.max_concurrent = some c)
    (h : LightweightCrawler.crawl_with_discovery env cr url fuel =
      .ok (res, cr2)) :
    (∀ r ∈ res,
      (env.urlparse r.url).netloc = (env.urlparse url).netloc) ∧
    (∀ u ∈ cr2.visited_urls, u ∈ cr.visited_urls ∨
      (env.urlparse u).netloc = (env.urlparse url).netloc) := by
  unfold LightweightCrawler.crawl_with_discovery at h
  split at h
  · simp only [Except.ok.injEq, Prod.mk.injEq] at h
    obtain ⟨h1, h2⟩ := h
    subst h1
    subst h2
    exact ⟨fun r hr => absurd hr (List.not_mem_nil r),
      fun u hu => Or.inl hu⟩
  · rw [hc] at h
    simp only [Except.ok.injEq, Prod.mk.injEq] at h
    obtain ⟨h1, h2⟩ := h
    have main := crawlLoop_same_domain env c cr.max_pages cr.max_depth
      (env.urlparse url).netloc fuel [(url, 0)] cr.visited_urls []
      (by
        intro p hp
        rw [List.mem_singleton] at hp
        rw [hp])
    constructor
    · intro r hr
      rw [← h1] at hr
      rcases main.1 r hr with h3 | h3
      · exact absurd h3 (List.not_mem_nil r)
      · exact h3
    · intro u hu
      rw [← h2] at hu
      exact main.2 u hu

deriving instance DecidableEq for Except

set_option maxRecDepth 2048 in
/-- Witness for C5 on fixture C: the crawl of the single-page site
returns exactly the seed record and visits exactly the seed. -/
theorem C5_crawl_stays_on_seed_domain_witness :
    (∀ r ∈ [(⟨"http://h/s", "t", "d", "body", "crawler"⟩ : PageResult)],
      (testEnvC.urlparse r.url).netloc =
        (testEnvC.urlparse "http://h/s").netloc) ∧
    (∀ u ∈ (⟨20, 2, 5, ["http://h/s"], some 1⟩ :
        LightweightCrawler).visited_urls,
      u ∈ testCrawlerC.visited_urls ∨
      (testEnvC.urlparse u).netloc =
        (testEnvC.urlparse "http://h/s").netloc) :=
  C5_crawl_stays_on_seed_domain testEnvC testCrawlerC "http://h/s" 2 1
    [⟨"http://h/s", "t", "d", "body", "crawler"⟩]
    ⟨20, 2, 5, ["http://h/s"], some 1⟩ (by rfl) (by decide)

/-! ## Vector store — `backend/app/services/vectorstore_service.py`

The chroma collection together with the embedding model is the external
vector capability (spec §1/§6): `capability query k` stands for
`collection.query(query_embeddings=embed(query), n_results=k)`, returning
ranked matches with their distances (each match's document, metadata url
and title, and distance).  `similarity_search` memoizes results in
`self.cache` keyed by `hashlib.md5(query.encode()).hexdigest()` — a key
derived from the query text ONLY, not from `k`; md5 is modelled as an
injective key (the query string itself). -/

structure QueryHit where
  doc : String
  metaUrl : String
  metaTitle : String
  distance : Rat
deriving Repr, DecidableEq

structure SearchResult where
  content : String
  metaUrl : String
  metaTitle : String
  score : Rat
deriving Repr, DecidableEq

structure VectorStoreState where
  searchCache : List (String × List SearchResult)
deriving Repr, DecidableEq

/-- `VectorStoreService.similarity_search(query, k=3)`: serve from the memo
cache on a hit; otherwise query the capability, convert each reported
distance to `score = 1 - distance`, cache, and trim the cache to its last
50 entries when it exceeds `max_cache_size = 100`. -/
def similarity_search (capability : String → Nat → List QueryHit)
    (st : VectorStoreState) (query : String) (k : Nat) :
    List SearchResult × VectorStoreState :=
  match dictLookup st.searchCache query with
  | some cached => (cached, st)
  | none =>
      let hits := capability query k
      let formatted := hits.map (fun h =>
        (⟨h.doc, h.metaUrl, h.metaTitle, 1 - h.distance⟩ : SearchResult))
      let c1 := dictSet st.searchCache query formatted
      let c2 := if 100 < c1.length then c1.drop (c1.length - 50) else c1
      (formatted, ⟨c2⟩)

/-- A conforming capability for the fixtures: the first `k` of five stored
matches, ranked by increasing distance. -/
def testHits : List QueryHit :=
  [⟨"d0", "u0", "t0", 0⟩, ⟨"d1", "u1", "t1", 1⟩, ⟨"d2", "u2", "t2", 2⟩,
   ⟨"d3", "u3", "t3", 3⟩, ⟨"d4", "u4", "t4", 4⟩]

def testCap : String → Nat → List QueryHit := fun _ k => testHits.take k

def vsRun1 : List SearchResult × VectorStoreState :=
  similarity_search testCap ⟨[]⟩ "q" 5

def vsRun2 : List SearchResult × VectorStoreState :=
  similarity_search testCap vsRun1.2 "q" 3

/-- C7 counterexample: the memo cache is keyed by the query text alone, so
after `similarity_search("q", 5)` has cached 5 results, the call
`similarity_search("q", 3)` returns those 5 cached results — more than
`k = 3`. -/
theorem C7_counterexample_cached_result_ignores_k :
    vsRun2.1.length = 5 ∧ ¬ vsRun2.1.length ≤ 3 := by
  refine ⟨?_, ?_⟩ <;> decide

/-- C7 amended: on a memo-cache miss, `similarity_search(query, k)` returns
at most `k` results when the capability honours `n_results = k`, each with
`score = 1 - distance`, ordered by non-increasing score when the capability
reports ranked (non-decreasing) distances; a cache hit instead returns the
previously cached list verbatim, regardless of the current `k`. -/
theorem C7_fresh_search_bounded_and_sorted
    (capability : String → Nat → List QueryHit) (st : VectorStoreState)
    (query : String) (k : Nat)
    (hmiss : dictLookup st.searchCache query = none)
    (hlen : (capability query k).length ≤ k)
    (hranked : List.Chain' (fun a b => a.distance ≤ b.distance)
      (capability query k)) :
    (similarity_search capability st query k).1.length ≤ k ∧
    (similarity_search capability st query k).1 =
      (capability query k).map (fun h =>
        (⟨h.doc, h.metaUrl, h.metaTitle, 1 - h.distance⟩ : SearchResult)) ∧
    List.Chain' (fun a b => b.score ≤ a.score)
      (similarity_search capability st query k).1 := by
  unfold similarity_search
  rw [hmiss]
  refine ⟨by simpa using hlen, rfl, ?_⟩
  simp only [List.chain'_map]
  refine List.Chain'.imp ?_ hranked
  intro a b hab
  simpa using sub_le_sub_left hab 1

/-- Witness for C7's amended statement at a concrete fresh search. -/
theorem C7_fresh_search_bounded_and_sorted_witness :
    (similarity_search testCap ⟨[]⟩ "q" 2).1.length ≤ 2 ∧
    (similarity_search testCap ⟨[]⟩ "q" 2).1 =
      (testCap "q" 2).map (fun h =>
        (⟨h.doc, h.metaUrl, h.metaTitle, 1 - h.distance⟩ : SearchResult)) ∧
    List.Chain' (fun a b => b.score ≤ a.score)
      (similarity_search testCap ⟨[]⟩ "q" 2).1 :=
  C7_fresh_search_bounded_and_sorted testCap ⟨[]⟩ "q" 2 (by rfl)
    (by decide)
    (by
      show List.Chain' _ [(⟨"d0", "u0", "t0", 0⟩ : QueryHit),
        ⟨"d1", "u1", "t1", 1⟩]
      refine List.chain'_cons.mpr ⟨?_, List.chain'_singleton _⟩
      norm_num)

/-! ## LLM service — `backend/app/services/llm_service.py`

`_call_api(api_name, endpoint, prompt, max_tokens)` performs the outbound
HTTP POST — an external capability.  `apiOracle api` stands for the outcome
of that POST for a given provider: `.raise` models a raised exception
(network error, timeout, JSON error), `.success body` models a completed
call returning `body` (the source returns `""` for a non-200 status, and
also when the provider's key is missing, which `callApiModel` reproduces). -/

structure LLMSettings where
  TOGETHER_API_KEY : String
  OPENROUTER_API_KEY : String
deriving Repr, DecidableEq

inductive ApiOutcome where
  | raise
  | success (body : String)
deriving Repr, DecidableEq

/-- Python `s.strip()`. -/
def pyStrip (s : String) : String :=
  ⟨((s.toList.dropWhile Char.isWhitespace).reverse.dropWhile
      Char.isWhitespace).reverse⟩

/-- `LLMService._call_api`: the provider branch is taken only when its API
key is truthy; otherwise the function falls through and returns `""`. -/
def callApiModel (settings : LLMSettings) (apiOracle : String → ApiOutcome)
    (api : String) : ApiOutcome :=
  if api = "together" ∧ settings.TOGETHER_API_KEY ≠ "" then apiOracle api
  else if api = "openrouter" ∧ settings.OPENROUTER_API_KEY ≠ "" then
    apiOracle api
  else .success ""

/-- The fallback template used when retrieval context was found: it names
the distinct context titles (`', '.join(set(sources))`; CPython set order
is unspecified, `dedup` order is taken). -/
def joinComma : List String → String
  | [] => ""
  | [x] => x
  | x :: y :: rest => x ++ ", " ++ joinComma (y :: rest)

def fallbackWithContext (query : String) (context : List SearchResult) :
    String :=
  "I found some relevant information for your query about \"" ++ query ++
  "\". Based on the available documentation from " ++
  joinComma (context.map (fun i => i.metaTitle)).dedup ++
  ", I\x27d be happy to help you with more specific details. " ++
  "Could you please let me know what specific aspect you\x27d like assistance with?"

def fallbackGeneric (query : String) : String :=
  "Hi! I\x27m Sarah, your i2c support assistant. I see you\x27re asking about \"" ++
  query ++ "\". \n\nTo provide you with the most accurate assistance, " ++
  "I\x27m currently checking our knowledge base. In the meantime, could you " ++
  "tell me more specifically what you\x27d like help with regarding i2c\x27s services?"

/-- `LLMService._get_enhanced_fallback_response`: deterministic, and its
form depends only on whether context is present. -/
def enhancedFallbackResponse (query : String)
    (context : List SearchResult) : String :=
  if 0 < context.length then fallbackWithContext query context
  else fallbackGeneric query

/-- The `for api_name, endpoint in self._endpoints.items()` loop of
`generate_response`: an exception moves to the next provider; a returned
body is accepted only when truthy and longer than 5 characters once
stripped. -/
def tryApis (settings : LLMSettings) (apiOracle : String → ApiOutcome) :
    List String → Option String
  | [] => none
  | api :: rest =>
      match callApiModel settings apiOracle api with
      | .raise => tryApis settings apiOracle rest
      | .success resp =>
          if resp ≠ "" ∧ 5 < strLen (pyStrip resp) then some resp
          else tryApis settings apiOracle rest

/-- `LLMService.generate_response`: with no configured keys, fall back
immediately; otherwise try the providers in `_endpoints` order and fall
back when all attempts fail.  Every raise point (`_call_api`) sits inside
the loop's `try/except`, so the function is total: it never propagates a
provider failure. -/
def generate_response (settings : LLMSettings)
    (apiOracle : String → ApiOutcome) (query : String)
    (context : List SearchResult) : String :=
  let has_together := settings.TOGETHER_API_KEY ≠ "" ∧
    pyStrip settings.TOGETHER_API_KEY ≠ ""
  let has_openrouter := settings.OPENROUTER_API_KEY ≠ "" ∧
    pyStrip settings.OPENROUTER_API_KEY ≠ ""
  if ¬ has_together ∧ ¬ has_openrouter then
    enhancedFallbackResponse query context
  else
    match tryApis settings apiOracle ["together", "openrouter"] with
    | some resp => resp
    | none => enhancedFallbackResponse query context

/-- A provider attempt fails: it raises, or returns a non-200/empty body,
or a body of at most 5 characters once stripped. -/
def attemptFails (settings : LLMSettings) (apiOracle : String → ApiOutcome)
    (api : String) : Prop :=
  match callApiModel settings apiOracle api with
  | .raise => True
  | .success resp => resp = "" ∨ strLen (pyStrip resp) ≤ 5

theorem tryApis_none (settings : LLMSettings)
    (apiOracle : String → ApiOutcome) (apis : List String)
    (h : ∀ api ∈ apis, attemptFails settings apiOracle api) :
    tryApis settings apiOracle apis = none := by
  induction apis with
  | nil => rfl
  | cons api rest ih =>
    have h1 := h api (List.mem_cons_self api rest)
    have ih2 := ih (fun a ha => h a (List.mem_cons_of_mem _ ha))
    unfold attemptFails at h1
    show (match callApiModel settings apiOracle api with
      | .raise => tryApis settings apiOracle rest
      | .success resp =>
          if resp ≠ "" ∧ 5 < strLen (pyStrip resp) then some resp
          else tryApis settings apiOracle rest) = none
    cases hc : callApiModel settings apiOracle api with
    | raise => exact ih2
    | success resp =>
      rw [hc] at h1
      have h1b : resp = "" ∨ strLen (pyStrip resp) ≤ 5 := h1
      have hcond : ¬ (resp ≠ "" ∧ 5 < strLen (pyStrip resp)) := by
        rcases h1b with h2 | h2
        · intro hcc; exact hcc.1 h2
        · intro hcc; omega
      show (if resp ≠ "" ∧ 5 < strLen (pyStrip resp) then some resp
          else tryApis settings apiOracle rest) = none
      rw [if_neg hcond]
      exact ih2

/-- C8: when every configured provider attempt fails (raises, returns a
non-200/empty body, or a too-short body), `generate_response` returns the
deterministic fallback template — whose form depends only on whether
retrieval context is present — and, being a total function whose only
raise points are absorbed by the loop's `try/except`, propagates no
exception. -/
theorem C8_all_providers_failing_yields_fallback
    (settings : LLMSettings) (apiOracle : String → ApiOutcome)
    (query : String) (context : List SearchResult)
    (hfail : ∀ api ∈ ["together", "openrouter"],
      attemptFails settings apiOracle api) :
    generate_response settings apiOracle query context =
      enhancedFallbackResponse query context ∧
    (0 < context.length →
      generate_response settings apiOracle query context =
        fallbackWithContext query context) ∧
    (context.length = 0 →
      generate_response settings apiOracle query context =
        fallbackGeneric query) := by
  have hmain : generate_response settings apiOracle query context =
      enhancedFallbackResponse query context := by
    have hnone := tryApis_none settings apiOracle
      ["together", "openrouter"] hfail
    simp only [generate_response]
    rw [hnone]
    split <;> rfl
  refine ⟨hmain, ?_, ?_⟩
  · intro hctx
    rw [hmain]
    unfold enhancedFallbackResponse
    rw [if_pos hctx]
  · intro hctx
    rw [hmain]
    unfold enhancedFallbackResponse
    rw [if_neg (by omega)]

/-- Witness for C8: a configured key whose provider always raises still
produces the generic fallback for a context-free query. -/
theorem C8_all_providers_failing_yields_fallback_witness :
    generate_response ⟨"key", ""⟩ (fun _ => ApiOutcome.raise) "hello" [] =
      enhancedFallbackResponse "hello" [] ∧
    (0 < ([] : List SearchResult).length →
      generate_response ⟨"key", ""⟩ (fun _ => ApiOutcome.raise) "hello" [] =
        fallbackWithContext "hello" []) ∧
    (([] : List SearchResult).length = 0 →
      generate_response ⟨"key", ""⟩ (fun _ => ApiOutcome.raise) "hello" [] =
        fallbackGeneric "hello") :=
  C8_all_providers_failing_yields_fallback ⟨"key", ""⟩
    (fun _ => ApiOutcome.raise) "hello" []
    (by
      intro api hapi
      simp only [List.mem_cons, List.mem_singleton] at hapi
      rcases hapi with h | h
      · subst h; exact True.intro
      · rcases h with h | h
        · subst h; exact Or.inl rfl
        · exact absurd h (List.not_mem_nil api))

/-! ## Chat route — `backend/app/routes/chat.py` (`chat_query`)

The route checks the shared cache under the key
`f"chat:{request.query}:{request.conversation_id}"`, on a hit returns the
cached payload reconstructed as a `ChatQueryResponse` (a faithful
round-trip, modelled by storing the response value itself), and on a miss
runs `similarity_search(query, k=5)`, calls
`llm_service.generate_response` (counted in `llmCalls`), builds the
response with the HARD-CODED `confidence=0.9` and `response_time=2.0`,
caches it, and returns it. -/

structure ChatResp where
  response : String
  conversation_id : String
  sources : List String
  confidence : Rat
  tokens_used : Nat
  response_time : Rat
deriving Repr, DecidableEq

/-- The capabilities `chat_query` consumes: the vector capability and the
LLM pipeline (`generate_response` with its provider oracle fixed). -/
structure ChatServices where
  cap : String → Nat → List QueryHit
  llm : String → List SearchResult → String

structure ChatState where
  cache : CacheState ChatResp
  vstore : VectorStoreState
  llmCalls : Nat
deriving DecidableEq

/-- Python `len(s.split())`: number of maximal whitespace-free runs. -/
def wordCountAux : List Char → Bool → Nat
  | [], _ => 0
  | c :: rest, inWord =>
      if c.isWhitespace then wordCountAux rest false
      else (if inWord then 0 else 1) + wordCountAux rest true

def countWords (s : String) : Nat := wordCountAux s.toList false

/-- `f"chat:{request.query}:{request.conversation_id}"` (Python renders a
missing conversation id as `None`). -/
def chatKey (query : String) (cid : Option String) : String :=
  "chat:" ++ query ++ ":" ++ (match cid with | some c => c | none => "None")

/-- The `ChatQueryResponse` built on a cache miss: sources are the context
entries' metadata urls, `confidence` is the constant `0.9`,
`tokens_used = len(llm_response.split())`, `response_time = 2.0`. -/
def mkChatResp (query : String) (cid : Option String)
    (llm_response : String) (context : List SearchResult) : ChatResp :=
  ⟨llm_response, cid.getD "default",
    context.map (fun i => i.metaUrl), 9/10, countWords llm_response, 2⟩

def chat_query (svc : ChatServices) (st : ChatState) (query : String)
    (cid : Option String) (now : Nat) : ChatResp × ChatState :=
  let key := chatKey query cid
  let g := CacheService.get st.cache key now
  match g.1 with
  | some v => (v, ⟨g.2, st.vstore, st.llmCalls⟩)
  | none =>
      let s := similarity_search svc.cap st.vstore query 5
      let resp := mkChatResp query cid (svc.llm query s.1) s.1
      (resp, ⟨CacheService.set g.2 key resp now, s.2, st.llmCalls + 1⟩)

/-! ### Cache-entry lemmas for the chat route -/

theorem dictLookup_mem {β : Type} (l : List (String × β)) (k : String)
    (e : β) (h : dictLookup l k = some e) : (k, e) ∈ l := by
  unfold dictLookup at h
  rcases Option.map_eq_some'.mp h with ⟨p, hp, hpe⟩
  have hk := List.find?_some hp
  have hmem := List.mem_of_find?_eq_some hp
  have hk2 : p.1 = k := by simpa using hk
  have : p = (k, e) := by
    cases p
    simp only at hpe hk2
    rw [hk2, hpe]
  rw [← this]
  exact hmem

theorem assoc_nodup_unique {β : Type} (l : List (String × β))
    (hN : (l.map Prod.fst).Nodup) (k : String) (e1 e2 : β)
    (h1 : (k, e1) ∈ l) (h2 : (k, e2) ∈ l) : e1 = e2 := by
  induction l with
  | nil => exact absurd h1 (List.not_mem_nil _)
  | cons p rest ih =>
    rw [List.map_cons] at hN
    have hN2 := List.nodup_cons.mp hN
    rcases List.mem_cons.mp h1 with ha | ha
    · rcases List.mem_cons.mp h2 with hb | hb
      · rw [← hb] at ha
        exact (Prod.mk.injEq _ _ _ _).mp ha |>.2
      · exfalso
        apply hN2.1
        have : p.1 = k := by rw [← ha]
        rw [this]
        exact List.mem_map.mpr ⟨(k, e2), hb, rfl⟩
    · rcases List.mem_cons.mp h2 with hb | hb
      · exfalso
        apply hN2.1
        have : p.1 = k := by rw [← hb]
        rw [this]
        exact List.mem_map.mpr ⟨(k, e1), ha, rfl⟩
      · exact ih hN2.2 ha hb

theorem dictSet_entry {β : Type} (l : List (String × β)) (k : String)
    (x e : β) (h : (k, e) ∈ dictSet l k x) : e = x := by
  unfold dictSet at h
  split at h
  · rcases List.mem_map.mp h with ⟨p, _, hp⟩
    by_cases hpk : p.1 = k
    · rw [if_pos hpk] at hp
      exact ((Prod.mk.injEq _ _ _ _).mp hp).2.symm
    · rw [if_neg hpk] at hp
      exact absurd (((Prod.mk.injEq _ _ _ _).mp hp).1) (by
        intro hc; exact hpk hc)
  · rcases List.mem_append.mp h with h2 | h2
    · next hany =>
      exfalso
      apply hany
      rw [List.any_eq_true]
      exact ⟨(k, e), h2, by simp⟩
    · rw [List.mem_singleton] at h2
      exact ((Prod.mk.injEq _ _ _ _).mp h2).2

theorem get_some_spec {α : Type} (s : CacheState α) (k : String)
    (now : Nat) (v : α) (s2 : CacheState α)
    (h : CacheService.get s k now = (some v, s2)) :
    ∃ e, dictLookup (cleanupExpired s.cache s.ttl now) k = some e ∧
      v = e.data ∧
      s2 = { s with cache := cleanupExpired s.cache s.ttl now } := by
  simp only [CacheService.get] at h
  cases hd : dictLookup (cleanupExpired s.cache s.ttl now) k with
  | none =>
    rw [hd] at h
    exact absurd ((Prod.mk.injEq _ _ _ _).mp h).1 (by simp)
  | some e =>
    rw [hd] at h
    have hred : (if now - e.timestamp ≤ s.ttl then
        ((some e.data : Option α),
          { s with cache := cleanupExpired s.cache s.ttl now })
      else (none,
        { s with cache :=
            dictErase (cleanupExpired s.cache s.ttl now) k })) =
        (some v, s2) := h
    by_cases hc : now - e.timestamp ≤ s.ttl
    · rw [if_pos hc] at hred
      obtain ⟨h1, h2⟩ := (Prod.mk.injEq _ _ _ _).mp hred
      exact ⟨e, rfl, ((Option.some.injEq _ _).mp h1).symm, h2.symm⟩
    · rw [if_neg hc] at hred
      exact absurd ((Prod.mk.injEq _ _ _ _).mp hred).1 (by simp)

theorem cleanup_keys_nodup {α : Type} (l : List (String × CacheEntry α))
    (ttl now : Nat) (hN : (l.map Prod.fst).Nodup) :
    ((cleanupExpired l ttl now).map Prod.fst).Nodup := by
  have hsub : List.Sublist (cleanupExpired l ttl now) l :=
    List.filter_sublist l
  exact List.Nodup.sublist (List.Sublist.map Prod.fst hsub) hN

theorem chat_query_hit (svc : ChatServices) (st : ChatState)
    (query : String) (cid : Option String) (now : Nat) (v : ChatResp)
    (c2 : CacheState ChatResp)
    (h : CacheService.get st.cache (chatKey query cid) now = (some v, c2)) :
    chat_query svc st query cid now = (v, ⟨c2, st.vstore, st.llmCalls⟩) := by
  simp only [chat_query]
  rw [h]

theorem chat_query_miss (svc : ChatServices) (st : ChatState)
    (query : String) (cid : Option String) (now : Nat)
    (c2 : CacheState ChatResp)
    (h : CacheService.get st.cache (chatKey query cid) now = (none, c2)) :
    chat_query svc st query cid now =
      (mkChatResp query cid
          (svc.llm query (similarity_search svc.cap st.vstore query 5).1)
          (similarity_search svc.cap st.vstore query 5).1,
        ⟨CacheService.set c2 (chatKey query cid)
            (mkChatResp query cid
              (svc.llm query
                (similarity_search svc.cap st.vstore query 5).1)
              (similarity_search svc.cap st.vstore query 5).1) now,
          (similarity_search svc.cap st.vstore query 5).2,
          st.llmCalls + 1⟩) := by
  simp only [chat_query]
  rw [h]

/-- C9: running `chat_query` twice with identical `query` and
`conversation_id`, with no operations in between and the first call's
result still cached at the second call's time (`hstill`), returns the
identical response from the second call and does not invoke the LLM
capability again (`llmCalls` unchanged).  `hN` is the key-uniqueness
invariant of the underlying Python dict. -/
theorem C9_second_identical_query_served_from_cache (svc : ChatServices)
    (st : ChatState) (query : String) (cid : Option String) (t1 t2 : Nat)
    (v : ChatResp)
    (hN : (st.cache.cache.map Prod.fst).Nodup)
    (hstill : (CacheService.get (chat_query svc st query cid t1).2.cache
        (chatKey query cid) t2).1 = some v) :
    (chat_query svc ((chat_query svc st query cid t1).2) query cid t2).1 =
      (chat_query svc st query cid t1).1 ∧
    (chat_query svc ((chat_query svc st query cid t1).2) query cid
        t2).2.llmCalls =
      (chat_query svc st query cid t1).2.llmCalls := by
  rcases hg1 : CacheService.get st.cache (chatKey query cid) t1 with ⟨o1, c1⟩
  cases o1 with
  | some v0 =>
    have h1 := chat_query_hit svc st query cid t1 v0 c1 hg1
    rw [h1] at hstill ⊢
    rcases hg2 : CacheService.get
        ((⟨c1, st.vstore, st.llmCalls⟩ : ChatState)).cache
        (chatKey query cid) t2 with ⟨o2, c3⟩
    have ho2 : o2 = some v := by
      have := congrArg Prod.fst hg2
      simp only at this
      rw [this] at hstill
      exact hstill
    subst ho2
    have h2 := chat_query_hit svc ⟨c1, st.vstore, st.llmCalls⟩ query cid t2
      v c3 hg2
    rw [h2]
    refine ⟨?_, rfl⟩
    obtain ⟨e0, hl0, hv0, hc1⟩ := get_some_spec st.cache (chatKey query cid)
      t1 v0 c1 hg1
    obtain ⟨e1, hl1, hv1, _⟩ := get_some_spec
      ((⟨c1, st.vstore, st.llmCalls⟩ : ChatState)).cache (chatKey query cid)
      t2 v c3 hg2
    have hm0 : (chatKey query cid, e0) ∈ c1.cache := by
      rw [hc1]
      exact dictLookup_mem _ _ _ hl0
    have hm1 : (chatKey query cid, e1) ∈ c1.cache :=
      List.mem_of_mem_filter (dictLookup_mem _ _ _ hl1)
    have hN1 : (c1.cache.map Prod.fst).Nodup := by
      rw [hc1]
      exact cleanup_keys_nodup st.cache.cache st.cache.ttl t1 hN
    have he : e1 = e0 := assoc_nodup_unique c1.cache hN1 _ e1 e0 hm1 hm0
    rw [hv1, hv0, he]
  | none =>
    have h1 := chat_query_miss svc st query cid t1 c1 hg1
    rw [h1] at hstill ⊢
    rcases hg2 : CacheService.get
        (CacheService.set c1 (chatKey query cid)
          (mkChatResp query cid
            (svc.llm query (similarity_search svc.cap st.vstore query 5).1)
            (similarity_search svc.cap st.vstore query 5).1) t1)
        (chatKey query cid) t2 with ⟨o2, c3⟩
    have ho2 : o2 = some v := by
      have := congrArg Prod.fst hg2
      simp only at this
      rw [this] at hstill
      exact hstill
    subst ho2
    have h2 := chat_query_hit svc
      ⟨CacheService.set c1 (chatKey query cid)
          (mkChatResp query cid
            (svc.llm query (similarity_search svc.cap st.vstore query 5).1)
            (similarity_search svc.cap st.vstore query 5).1) t1,
        (similarity_search svc.cap st.vstore query 5).2,
        st.llmCalls + 1⟩ query cid t2 v c3 hg2
    rw [h2]
    refine ⟨?_, rfl⟩
    obtain ⟨e1, hl1, hv1, _⟩ := get_some_spec _ (chatKey query cid) t2 v c3
      hg2
    have hm1 : (chatKey query cid, e1) ∈
        (CacheService.set c1 (chatKey query cid)
          (mkChatResp query cid
            (svc.llm query (similarity_search svc.cap st.vstore query 5).1)
            (similarity_search svc.cap st.vstore query 5).1) t1).cache :=
      List.mem_of_mem_filter (dictLookup_mem _ _ _ hl1)
    have he : e1 = ⟨mkChatResp query cid
        (svc.llm query (similarity_search svc.cap st.vstore query 5).1)
        (similarity_search svc.cap st.vstore query 5).1, t1⟩ :=
      dictSet_entry _ _ _ _ hm1
    rw [hv1, he]

/-- Witness for C9: a cold start, two identical queries at the same time;
the second is the cached copy of the first and the LLM is called once. -/
theorem C9_second_identical_query_served_from_cache_witness :
    (chat_query ⟨fun _ _ => [], fun _ _ => "hello world"⟩
        ((chat_query ⟨fun _ _ => [], fun _ _ => "hello world"⟩
          ⟨CacheService.init ChatResp 50 3600, ⟨[]⟩, 0⟩ "q" none 0).2)
        "q" none 0).1 =
      (chat_query ⟨fun _ _ => [], fun _ _ => "hello world"⟩
        ⟨CacheService.init ChatResp 50 3600, ⟨[]⟩, 0⟩ "q" none 0).1 ∧
    (chat_query ⟨fun _ _ => [], fun _ _ => "hello world"⟩
        ((chat_query ⟨fun _ _ => [], fun _ _ => "hello world"⟩
          ⟨CacheService.init ChatResp 50 3600, ⟨[]⟩, 0⟩ "q" none 0).2)
        "q" none 0).2.llmCalls =
      (chat_query ⟨fun _ _ => [], fun _ _ => "hello world"⟩
        ⟨CacheService.init ChatResp 50 3600, ⟨[]⟩, 0⟩ "q" none 0).2.llmCalls :=
  C9_second_identical_query_served_from_cache
    ⟨fun _ _ => [], fun _ _ => "hello world"⟩
    ⟨CacheService.init ChatResp 50 3600, ⟨[]⟩, 0⟩ "q" none 0 0
    (mkChatResp "q" none "hello world" []) (by decide) (by rfl)

/-- Fixtures for C10: one run with empty retrieval context and a short
response, one with five context hits and a longer, lexically overlapping
response. -/
def chatRunEmptyCtx : ChatResp × ChatState :=
  chat_query ⟨fun _ _ => [], fun _ _ => "hi"⟩
    ⟨CacheService.init ChatResp 50 3600, ⟨[]⟩, 0⟩ "what is i2c" none 0

def chatRunFullCtx : ChatResp × ChatState :=
  chat_query ⟨testCap, fun _ _ => "i2c is a payments platform"⟩
    ⟨CacheService.init ChatResp 50 3600, ⟨[]⟩, 0⟩ "what is i2c" none 0

/-- C10 counterexample: two answer-operation runs that differ in context
count (0 vs 5), response length and query/response lexical overlap return
the SAME confidence, the hard-coded constant 0.9 — so the returned
confidence is not a (varying) function of those inputs. -/
theorem C10_counterexample_confidence_not_heuristic :
    chatRunEmptyCtx.1.confidence = 9/10 ∧
    chatRunFullCtx.1.confidence = 9/10 ∧
    chatRunEmptyCtx.1.sources.length = 0 ∧
    chatRunFullCtx.1.sources.length = 5 ∧
    chatRunEmptyCtx.1.response ≠ chatRunFullCtx.1.response := by
  exact ⟨rfl, rfl, by decide, by decide, by decide⟩

/-- C10 amended: on a cache miss, the confidence returned by the answer
operation is the hard-coded constant `0.9` — `chat_query` never invokes
`ConversationService.generate_confidence_score`, whose heuristic (context
count, response-length band, lexical overlap) exists in
`intelligence_service.py` but is dead code for this route. -/
theorem C10_confidence_is_constant (svc : ChatServices) (st : ChatState)
    (query : String) (cid : Option String) (now : Nat)
    (hmiss : (CacheService.get st.cache (chatKey query cid) now).1 = none) :
    (chat_query svc st query cid now).1.confidence = 9/10 := by
  rcases hg : CacheService.get st.cache (chatKey query cid) now with ⟨o, c⟩
  have ho : o = none := by
    have := congrArg Prod.fst hg
    simp only at this
    rw [this] at hmiss
    exact hmiss
  subst ho
  rw [chat_query_miss svc st query cid now c hg]
  rfl

/-- Witness for C10's amended statement on a cold cache. -/
theorem C10_confidence_is_constant_witness :
    (chat_query ⟨fun _ _ => [], fun _ _ => "hi"⟩
      ⟨CacheService.init ChatResp 50 3600, ⟨[]⟩, 0⟩ "q" none 0).1.confidence
      = 9/10 :=
  C10_confidence_is_constant ⟨fun _ _ => [], fun _ _ => "hi"⟩
    ⟨CacheService.init ChatResp 50 3600, ⟨[]⟩, 0⟩ "q" none 0 (by rfl)

end AIChatbot
